import Mathlib

/-!
Shallow embedding of the coc-agent AI completion client
(src/src/ai-client.ts and the bundled build src/lib/index.js).

JavaScript numbers are modelled as exact rationals, machine strings as
Lean strings, and JavaScript truthiness of optional strings and numbers
is made explicit by the jsOr helpers below (an absent value and a falsy
value such as the empty string or zero both select the default, exactly
as the source's pattern "x || default" does).
-/

namespace CocAgent

/-- The whitespace characters relevant to the strings this client handles;
used to model the JS String.prototype.trim. -/
def isWsChar (c : Char) : Bool :=
  c = ' ' ∨ c = '\t' ∨ c = '\n' ∨ c = '\r'

/-- Executable model of the JS s.trim(): strip leading and trailing
whitespace. -/
def jsTrim (s : String) : String :=
  String.mk (((s.data.dropWhile isWsChar).reverse.dropWhile isWsChar).reverse)

/-- Splitting a character list at newline characters. -/
def splitNlAux : List Char → List (List Char)
  | [] => [[]]
  | c :: rest =>
    if c = '\n' then [] :: splitNlAux rest
    else
      match splitNlAux rest with
      | l :: ls => (c :: l) :: ls
      | [] => [[c]]

/-- Executable model of the JS s.split with separator newline. -/
def jsSplitNewline (s : String) : List String :=
  (splitNlAux s.data).map String.mk

/-- Truthiness of an optional JS string: present and non-empty. -/
def jsTruthyStr (o : Option String) : Bool :=
  match o with
  | none => false
  | some s => s ≠ ""

/-- The JS idiom "s || d" on an optional string: falsy (absent or empty) picks d. -/
def jsOrStr (o : Option String) (d : String) : String :=
  match o with
  | none => d
  | some s => if s = "" then d else s

/-- The JS idiom "n || d" on an optional number: falsy (absent or zero) picks d. -/
def jsOrInt (o : Option Int) (d : Int) : Int :=
  match o with
  | none => d
  | some v => if v = 0 then d else v

/-- The JS idiom "t || d" on an optional numeric value: falsy (absent or zero) picks d. -/
def jsOrRat (o : Option ℚ) (d : ℚ) : ℚ :=
  match o with
  | none => d
  | some v => if v = 0 then d else v

/-- BaseAIConfig / OpenAIConfig / ClaudeConfig from src/src/ai-client.ts:
only apiKey is required; the rest is optional. -/
structure AIConfig where
  apiKey : String
  baseURL : Option String := none
  model : Option String := none
  maxTokens : Option Int := none
  temperature : Option ℚ := none
deriving Repr, DecidableEq

/-- The shape of this.config after a concrete constructor ran:
every field filled (the TS type Required of BaseAIConfig). -/
structure NormalizedConfig where
  apiKey : String
  baseURL : String
  model : String
  maxTokens : Int
  temperature : ℚ
deriving Repr, DecidableEq

/-- Errors thrown by the client code. A raw "throw new Error(msg)" is
plain; "throw new AIClientError(msg, provider, statusCode)" is aiClient
and is the only shape carrying a provider tag and an optional statusCode. -/
inductive JsError where
  | plain (message : String)
  | aiClient (message : String) (provider : String) (statusCode : Option Nat)
deriving Repr, DecidableEq

/-- Does a thrown error carry an AIClientError statusCode field? -/
def JsError.hasStatusCode : JsError → Bool
  | .aiClient _ _ (some _) => true
  | _ => false

/-- Is the thrown error an AIClientError at all? -/
def JsError.isAiClient : JsError → Bool
  | .aiClient _ _ _ => true
  | _ => false

/-- CompletionRequest from src/src/ai-client.ts. -/
structure CompletionRequest where
  prompt : String
  context : Option String := none
  language : Option String := none
  maxSuggestions : Option Int := none
deriving Repr, DecidableEq

/-- CompletionSuggestion from src/src/ai-client.ts: text plus optional
confidence and optional type tag. -/
structure CompletionSuggestion where
  text : String
  confidence : Option ℚ := none
  type : Option String := none
deriving Repr, DecidableEq

/-- TokenUsage; fields stay optional because the OpenAI parser copies
possibly-absent wire fields through unchanged. -/
structure TokenUsage where
  promptTokens : Option Int := none
  completionTokens : Option Int := none
  totalTokens : Option Int := none
deriving Repr, DecidableEq

/-- CompletionResponse from src/src/ai-client.ts. -/
structure CompletionResponse where
  suggestions : List CompletionSuggestion
  model : Option String := none
  usage : Option TokenUsage := none
deriving Repr, DecidableEq

/-- BaseAIClient.validateConfig (src/src/ai-client.ts lines 184-196):
rejects a missing/empty/whitespace apiKey, an out-of-range temperature,
and a non-positive maxTokens, each with an AIClientError. -/
def BaseAIClient.validateConfig (provider : String) (config : AIConfig) :
    Except JsError Unit :=
  if config.apiKey = "" ∨ jsTrim config.apiKey = "" then
    .error (.aiClient "API key is required and must be a non-empty string" provider none)
  else if config.temperature ≠ none ∧
      ((config.temperature.getD 0) < 0 ∨ (config.temperature.getD 0) > 1) then
    .error (.aiClient "Temperature must be between 0.0 and 1.0" provider none)
  else if config.maxTokens ≠ none ∧ (config.maxTokens.getD 0) ≤ 0 then
    .error (.aiClient "Max tokens must be a positive number" provider none)
  else
    .ok ()

/-- BaseAIClient.validateRequest (src/src/ai-client.ts lines 198-206):
rejects an empty/whitespace prompt and a non-positive maxSuggestions. -/
def BaseAIClient.validateRequest (provider : String) (request : CompletionRequest) :
    Except JsError Unit :=
  if request.prompt = "" ∨ jsTrim request.prompt = "" then
    .error (.aiClient "Prompt is required and must be a non-empty string" provider none)
  else if request.maxSuggestions ≠ none ∧ (request.maxSuggestions.getD 0) ≤ 0 then
    .error (.aiClient "Max suggestions must be a positive number" provider none)
  else
    .ok ()

/-- ClaudeClient constructor (src/src/ai-client.ts lines 255-263):
fills defaults with the JS "||" idiom and performs no validation. -/
def ClaudeClient.mkConfig (config : AIConfig) : NormalizedConfig :=
  { apiKey := config.apiKey
    baseURL := jsOrStr config.baseURL "https://api.anthropic.com"
    model := jsOrStr config.model "claude-3-haiku-20240307"
    maxTokens := jsOrInt config.maxTokens 100
    temperature := jsOrRat config.temperature (3 / 10) }

/-- OpenAIClient constructor (src/src/ai-client.ts lines 368-376):
fills defaults with the JS "||" idiom and performs no validation. -/
def OpenAIClient.mkConfig (config : AIConfig) : NormalizedConfig :=
  { apiKey := config.apiKey
    baseURL := jsOrStr config.baseURL "https://api.openai.com/v1"
    model := jsOrStr config.model "gpt-3.5-turbo"
    maxTokens := jsOrInt config.maxTokens 100
    temperature := jsOrRat config.temperature (3 / 10) }

/-- A constructed client: the factory returns either an OpenAIClient or a
ClaudeClient, each holding its normalized config. -/
inductive AIClientInstance where
  | openai (config : NormalizedConfig)
  | claude (config : NormalizedConfig)
deriving Repr, DecidableEq

/-- createAIClient (src/src/ai-client.ts lines 525-531): the provider tag
is compared against the single string claude; every other tag, recognized
or not, falls to the else branch and constructs an OpenAIClient. No path
throws. -/
def createAIClient (provider : String) (config : AIConfig) : AIClientInstance :=
  if provider = "claude" then
    .claude (ClaudeClient.mkConfig config)
  else
    .openai (OpenAIClient.mkConfig config)

/-- BaseAIClient.buildPrompt (src/src/ai-client.ts lines 210-224): collects
the present sections into an array and joins them with blank lines. -/
def BaseAIClient.buildPrompt (request : CompletionRequest) : String :=
  let parts : List String := []
  let parts := if jsTruthyStr request.language then
    parts ++ ["Language: " ++ request.language.getD ""] else parts
  let parts := if jsTruthyStr request.context then
    parts ++ ["Context:\n" ++ request.context.getD ""] else parts
  let parts := parts ++ ["Complete the following code:\n" ++ request.prompt]
  String.intercalate "\n\n" parts

/-- ClaudeClient.buildPrompt (src/src/ai-client.ts lines 303-317): appends
the sections to one string; Language is followed by a single newline and
only the Context block by a blank line. -/
def ClaudeClient.buildPrompt (request : CompletionRequest) : String :=
  let prompt := ""
  let prompt := if jsTruthyStr request.language then
    prompt ++ "Language: " ++ request.language.getD "" ++ "\n" else prompt
  let prompt := if jsTruthyStr request.context then
    prompt ++ "Context:\n" ++ request.context.getD "" ++ "\n\n" else prompt
  prompt ++ "Complete the following code:\n" ++ request.prompt

/-- OpenAIClient.buildPrompt (src/src/ai-client.ts lines 420-434): textually
identical to the Claude variant. -/
def OpenAIClient.buildPrompt (request : CompletionRequest) : String :=
  let prompt := ""
  let prompt := if jsTruthyStr request.language then
    prompt ++ "Language: " ++ request.language.getD "" ++ "\n" else prompt
  let prompt := if jsTruthyStr request.context then
    prompt ++ "Context:\n" ++ request.context.getD "" ++ "\n\n" else prompt
  prompt ++ "Complete the following code:\n" ++ request.prompt

/-- One content block of a Claude messages response; text is absent when
the JSON carried no text field. -/
structure ClaudeContentBlock where
  type : String
  text : Option String := none
deriving Repr, DecidableEq

/-- Usage object of a Claude response. -/
structure ClaudeUsage where
  input_tokens : Option Int := none
  output_tokens : Option Int := none
deriving Repr, DecidableEq

/-- Decoded JSON body of a Claude messages response; content is some only
when the field is present and an array. -/
structure ClaudeResponseData where
  content : Option (List ClaudeContentBlock) := none
  model : Option String := none
  usage : Option ClaudeUsage := none
deriving Repr, DecidableEq

/-- The non-empty lines of a text: text.split on newline, filtered by JS
truthiness of line.trim (src/src/ai-client.ts line 328). -/
def nonEmptyLines (text : String) : List String :=
  (jsSplitNewline text).filter (fun line => jsTrim line ≠ "")

/-- The for-loop body of ClaudeClient.parseResponse (lines 331-337): one
suggestion per kept line index i, text lines[i].trim(), confidence
0.9 - i * 0.1, type completion. -/
def claudeLineSuggestions (lines : List String) (numSuggestions : Nat) :
    List CompletionSuggestion :=
  (List.range numSuggestions).map (fun i =>
    { text := jsTrim (lines.getD i "")
      confidence := some (9 / 10 - (i : ℚ) * (1 / 10))
      type := some "completion" })

/-- The content-scanning loop of ClaudeClient.parseResponse (lines 323-341):
skip blocks that are not text blocks with truthy text, skip text that trims
to empty, and stop (break) at the first block whose trimmed text is
non-empty, emitting min(lines.length, maxSuggestions) line suggestions. -/
def claudeScanContent (blocks : List ClaudeContentBlock) (maxSuggestions : Int) :
    List CompletionSuggestion :=
  match blocks with
  | [] => []
  | block :: rest =>
    if block.type = "text" ∧ jsTruthyStr block.text then
      let text := jsTrim (block.text.getD "")
      if text ≠ "" then
        let lines := nonEmptyLines text
        claudeLineSuggestions lines (min (lines.length : Int) maxSuggestions).toNat
      else
        claudeScanContent rest maxSuggestions
    else
      claudeScanContent rest maxSuggestions

/-- ClaudeClient.parseResponse (src/src/ai-client.ts lines 319-362): scan
the content blocks; if no suggestion was produced and the first content
block has truthy text, fall back to that whole trimmed text at confidence
0.9; map usage via input_tokens/output_tokens with zero defaults. -/
def ClaudeClient.parseResponse (data : ClaudeResponseData) (maxSuggestions : Int) :
    CompletionResponse :=
  let suggestions :=
    match data.content with
    | some blocks => claudeScanContent blocks maxSuggestions
    | none => []
  let suggestions :=
    if suggestions.length = 0 then
      match data.content with
      | some (first :: _) =>
        if jsTruthyStr first.text then
          suggestions ++ [{ text := jsTrim (first.text.getD "")
                            confidence := some (9 / 10)
                            type := some "completion" }]
        else suggestions
      | _ => suggestions
    else suggestions
  { suggestions := suggestions
    model := data.model
    usage :=
      match data.usage with
      | some u => some
          { promptTokens := some (u.input_tokens.getD 0)
            completionTokens := some (u.output_tokens.getD 0)
            totalTokens := some (u.input_tokens.getD 0 + u.output_tokens.getD 0) }
      | none => none }

/-- The wire request a ClaudeClient.getCompletions fetch issues
(src/src/ai-client.ts lines 269-288). -/
structure ClaudeWireRequest where
  url : String
  apiKey : String
  anthropicVersion : String
  model : String
  max_tokens : Int
  temperature : ℚ
  userContent : String
  system : String
deriving Repr, DecidableEq

/-- A wire response as fetch exposes it; ok is the 2xx test, and body is
the decoded JSON that response.json() would produce. -/
structure ClaudeWireResponse where
  status : Nat
  statusText : String
  body : ClaudeResponseData
deriving Repr, DecidableEq

/-- fetch marks a response ok exactly when its status is in the 2xx range. -/
def fetchOk (status : Nat) : Bool :=
  200 ≤ status ∧ status ≤ 299

/-- The fixed system instruction both clients send. -/
def systemInstruction : String :=
  "You are a code completion assistant. Provide helpful code completions based on the context. Return only the completion text without explanations."

/-- ClaudeClient.getCompletions (src/src/ai-client.ts lines 265-301),
with the network abstracted as a function from the wire request to the
wire response. Returns the list of wire requests actually issued together
with the outcome. No validation happens; the single fetch is issued
unconditionally; a non-ok status throws a plain Error built from the
status and statusText, before any body is read; an ok status parses the
body with maxSuggestions = request.maxSuggestions || 3. -/
def ClaudeClient.getCompletions (config : NormalizedConfig)
    (request : CompletionRequest)
    (wire : ClaudeWireRequest → ClaudeWireResponse) :
    List ClaudeWireRequest × Except JsError CompletionResponse :=
  let prompt := ClaudeClient.buildPrompt request
  let wireRequest : ClaudeWireRequest :=
    { url := config.baseURL ++ "/v1/messages"
      apiKey := config.apiKey
      anthropicVersion := "2023-06-01"
      model := config.model
      max_tokens := config.maxTokens
      temperature := config.temperature
      userContent := prompt
      system := systemInstruction }
  let response := wire wireRequest
  if ¬ fetchOk response.status then
    ([wireRequest], .error (.plain ("Claude API error: " ++ toString response.status
      ++ " " ++ response.statusText)))
  else
    ([wireRequest], .ok (ClaudeClient.parseResponse response.body
      (jsOrInt request.maxSuggestions 3)))

/-- The message object of an OpenAI chat choice. -/
structure OpenAIMessage where
  content : Option String := none
deriving Repr, DecidableEq

/-- One choices entry of an OpenAI chat completions response. -/
structure OpenAIChoice where
  message : Option OpenAIMessage := none
  finish_reason : Option String := none
deriving Repr, DecidableEq

/-- Usage object of an OpenAI response; fields pass through unchanged. -/
structure OpenAIUsage where
  prompt_tokens : Option Int := none
  completion_tokens : Option Int := none
  total_tokens : Option Int := none
deriving Repr, DecidableEq

/-- Decoded JSON body of an OpenAI chat completions response. -/
structure OpenAIResponseData where
  choices : Option (List OpenAIChoice) := none
  model : Option String := none
  usage : Option OpenAIUsage := none
deriving Repr, DecidableEq

/-- OpenAIClient.calculateConfidence (src/lib/index.js lines 145-152):
finish_reason stop gives 0.9, length gives 0.7, anything else 0.5. -/
def OpenAIClient.calculateConfidence (choice : OpenAIChoice) : ℚ :=
  if choice.finish_reason = some "stop" then 9 / 10
  else if choice.finish_reason = some "length" then 7 / 10
  else 1 / 2

/-- The usage mapping shared by both OpenAI parser copies: wire fields are
copied through unchanged. -/
def openAIMapUsage (usage : Option OpenAIUsage) : Option TokenUsage :=
  match usage with
  | some u => some
      { promptTokens := u.prompt_tokens
        completionTokens := u.completion_tokens
        totalTokens := u.total_tokens }
  | none => none

/-- OpenAIClient.parseResponse of the bundled build (src/lib/index.js
lines 119-144): one suggestion per choices entry with a truthy message
content whose trim is non-empty, carrying the trimmed text, a confidence
from calculateConfidence and type completion. -/
def OpenAIClient.parseResponseJS (data : OpenAIResponseData) : CompletionResponse :=
  let suggestions :=
    match data.choices with
    | some choices => choices.filterMap (fun choice =>
        match choice.message with
        | some message =>
          if jsTruthyStr message.content then
            let text := jsTrim (message.content.getD "")
            if text ≠ "" then
              some { text := text
                     confidence := some (OpenAIClient.calculateConfidence choice)
                     type := some "completion" }
            else none
          else none
        | none => none)
    | none => []
  { suggestions := suggestions
    model := data.model
    usage := openAIMapUsage data.usage }

/-- OpenAIClient.parseResponse of the TypeScript source (src/src/ai-client.ts
lines 436-462): identical to the bundled copy except that no confidence
field is set on the suggestions. -/
def OpenAIClient.parseResponseTS (data : OpenAIResponseData) : CompletionResponse :=
  let suggestions :=
    match data.choices with
    | some choices => choices.filterMap (fun choice =>
        match choice.message with
        | some message =>
          if jsTruthyStr message.content then
            let text := jsTrim (message.content.getD "")
            if text ≠ "" then
              some { text := text
                     type := some "completion" }
            else none
          else none
        | none => none)
    | none => []
  { suggestions := suggestions
    model := data.model
    usage := openAIMapUsage data.usage }

/-- The wire request an OpenAIClient.getCompletions fetch issues
(src/src/ai-client.ts lines 382-405). -/
structure OpenAIWireRequest where
  url : String
  apiKey : String
  model : String
  systemContent : String
  userContent : String
  max_tokens : Int
  temperature : ℚ
  n : Int
  stop : List String
deriving Repr, DecidableEq

/-- A wire response for the OpenAI endpoint. -/
structure OpenAIWireResponse where
  status : Nat
  statusText : String
  body : OpenAIResponseData
deriving Repr, DecidableEq

/-- OpenAIClient.getCompletions (src/src/ai-client.ts lines 378-418), with
the network abstracted as for the Claude variant. The wire parameter n is
request.maxSuggestions || 3; no validation happens; the fetch is issued
unconditionally; a non-ok status throws a plain Error before any body is
read; an ok status is parsed without any maxSuggestions cap. The parser
copy is passed in so the TypeScript and the bundled variant share this
definition. -/
def OpenAIClient.getCompletions (parse : OpenAIResponseData → CompletionResponse)
    (config : NormalizedConfig) (request : CompletionRequest)
    (wire : OpenAIWireRequest → OpenAIWireResponse) :
    List OpenAIWireRequest × Except JsError CompletionResponse :=
  let prompt := OpenAIClient.buildPrompt request
  let wireRequest : OpenAIWireRequest :=
    { url := config.baseURL ++ "/chat/completions"
      apiKey := config.apiKey
      model := config.model
      systemContent := systemInstruction
      userContent := prompt
      max_tokens := config.maxTokens
      temperature := config.temperature
      n := jsOrInt request.maxSuggestions 3
      stop := ["\n\n", "```"] }
  let response := wire wireRequest
  if ¬ fetchOk response.status then
    ([wireRequest], .error (.plain ("OpenAI API error: " ++ toString response.status
      ++ " " ++ response.statusText)))
  else
    ([wireRequest], .ok (parse response.body))

/-- BaseAIClient.getCompletions (src/src/ai-client.ts lines 173-182)
reduced to its call order: validateRequest runs first, and callAPI is
reached only when validation succeeds. The result counts the callAPI
invocations. -/
def BaseAIClient.callAPICount (provider : String) (request : CompletionRequest) : Nat :=
  match BaseAIClient.validateRequest provider request with
  | .error _ => 0
  | .ok _ => 1

/-!
Helper lemmas shared by the claim theorems.
-/

/-- A filterMap whose function is an if-then-some-else-none is the filter
followed by the map. -/
theorem filterMap_eq_filter_map_of {α β : Type} (f : α → Option β) (p : α → Bool)
    (g : α → β) (hf : ∀ a, f a = if p a then some (g a) else none) :
    ∀ l : List α, l.filterMap f = (l.filter p).map g := by
  intro l
  induction l with
  | nil => simp
  | cons a l ih =>
    by_cases hp : p a <;> simp [List.filterMap_cons, hf a, hp, ih]

/-- The length of a filterMap is the count of elements on which the
function is some. -/
theorem length_filterMap_eq_countP_of {α β : Type} (f : α → Option β) (p : α → Bool)
    (hf : ∀ a, (f a).isSome = p a) :
    ∀ l : List α, (l.filterMap f).length = l.countP p := by
  intro l
  induction l with
  | nil => simp
  | cons a l ih =>
    rcases hof : f a with _ | b <;>
      have := hf a <;>
      simp [List.filterMap_cons, hof, List.countP_cons, ih] <;>
      simp [hof] at this <;>
      simp [← this]

/-- An element that fails the predicate survives dropWhile. -/
theorem mem_dropWhile_of_mem {α : Type} (p : α → Bool) {c : α} :
    ∀ {l : List α}, c ∈ l → p c = false → c ∈ l.dropWhile p := by
  intro l
  induction l with
  | nil => intro h; cases h
  | cons a l ih =>
    intro hmem hpc
    by_cases hpa : p a = true
    · rcases List.mem_cons.1 hmem with rfl | hl
      · rw [hpa] at hpc; cases hpc
      · rw [List.dropWhile_cons, hpa]
        exact ih hl hpc
    · rw [List.dropWhile_cons]
      simp only [Bool.not_eq_true] at hpa
      rw [hpa]
      exact hmem

/-- The head of a non-nil dropWhile result fails the predicate. -/
theorem headD_dropWhile_eq_false {α : Type} (p : α → Bool) (d : α) :
    ∀ (l : List α), l.dropWhile p ≠ [] → p ((l.dropWhile p).headD d) = false := by
  intro l
  induction l with
  | nil => intro h; simp at h
  | cons a l ih =>
    intro hne
    by_cases hpa : p a = true
    · rw [List.dropWhile_cons, hpa] at hne ⊢
      simp only [if_true]
      exact ih hne
    · simp only [Bool.not_eq_true] at hpa
      rw [List.dropWhile_cons, hpa]
      simp only [Bool.false_eq_true, if_false, List.headD_cons]
      exact hpa

/-- splitNlAux always produces at least one (possibly empty) line. -/
theorem splitNlAux_ne_nil : ∀ cs : List Char, splitNlAux cs ≠ [] := by
  intro cs
  cases cs with
  | nil => simp [splitNlAux]
  | cons c rest =>
    by_cases hc : c = '\n'
    · simp [splitNlAux, hc]
    · simp only [splitNlAux, hc, if_false]
      rcases hs : splitNlAux rest with _ | ⟨l, ls⟩ <;> simp

/-- Every non-newline character of the input lands in some line of
splitNlAux. -/
theorem exists_line_of_mem {c : Char} :
    ∀ {cs : List Char}, c ∈ cs → c ≠ '\n' → ∃ l ∈ splitNlAux cs, c ∈ l := by
  intro cs
  induction cs with
  | nil => intro h; cases h
  | cons x rest ih =>
    intro hmem hcnl
    by_cases hx : x = '\n'
    · have hcr : c ∈ rest := by
        rcases List.mem_cons.1 hmem with rfl | h
        · exact absurd hx hcnl
        · exact h
      obtain ⟨l, hl, hcl⟩ := ih hcr hcnl
      exact ⟨l, by simp [splitNlAux, hx, hl], hcl⟩
    · rcases hs : splitNlAux rest with _ | ⟨l, ls⟩
      · exact absurd hs (splitNlAux_ne_nil rest)
      · rcases List.mem_cons.1 hmem with rfl | hcr
        · refine ⟨c :: l, ?_, List.mem_cons_self c l⟩
          simp [splitNlAux, hx, hs]
        · obtain ⟨l', hl', hcl'⟩ := ih hcr hcnl
          rw [hs] at hl'
          rcases List.mem_cons.1 hl' with rfl | hls
          · exact ⟨x :: l', by simp [splitNlAux, hx, hs], List.mem_cons_of_mem x hcl'⟩
          · exact ⟨l', by simp [splitNlAux, hx, hs, hls], hcl'⟩

/-- A String.mk is the empty string exactly when its character list is
empty. -/
theorem string_mk_eq_empty_iff (l : List Char) : String.mk l = "" ↔ l = [] := by
  constructor
  · intro h
    have := congrArg String.data h
    simpa using this
  · intro h; rw [h]

/-- A character list containing a non-whitespace character trims to a
non-empty string. -/
theorem jsTrim_mk_ne_empty_of_mem {l : List Char} {c : Char}
    (hc : c ∈ l) (hw : isWsChar c = false) : jsTrim (String.mk l) ≠ "" := by
  have h1 : c ∈ l.dropWhile isWsChar := mem_dropWhile_of_mem isWsChar hc hw
  have h2 : c ∈ (l.dropWhile isWsChar).reverse := List.mem_reverse.2 h1
  have h3 : c ∈ ((l.dropWhile isWsChar).reverse).dropWhile isWsChar :=
    mem_dropWhile_of_mem isWsChar h2 hw
  have h4 : c ∈ (((l.dropWhile isWsChar).reverse).dropWhile isWsChar).reverse :=
    List.mem_reverse.2 h3
  intro hcontra
  rw [jsTrim] at hcontra
  have : (((String.mk l).data.dropWhile isWsChar).reverse.dropWhile isWsChar).reverse = [] :=
    (string_mk_eq_empty_iff _).1 hcontra
  simp only [String.data] at this
  rw [this] at h4
  cases h4

/-- A non-empty trimmed string contains a non-whitespace character. -/
theorem exists_not_ws_of_jsTrim_ne (s : String) (h : jsTrim s ≠ "") :
    ∃ c ∈ (jsTrim s).data, isWsChar c = false := by
  have hdata : (jsTrim s).data =
      ((s.data.dropWhile isWsChar).reverse.dropWhile isWsChar).reverse := rfl
  have hne : ((s.data.dropWhile isWsChar).reverse.dropWhile isWsChar) ≠ [] := by
    intro hcontra
    apply h
    rw [jsTrim, hcontra]
    rfl
  refine ⟨((s.data.dropWhile isWsChar).reverse.dropWhile isWsChar).headD ' ', ?_, ?_⟩
  · rw [hdata, List.mem_reverse]
    rcases hB : (s.data.dropWhile isWsChar).reverse.dropWhile isWsChar with _ | ⟨b, bs⟩
    · exact absurd hB hne
    · simp
  · exact headD_dropWhile_eq_false isWsChar ' ' _ hne

/-- A non-empty trimmed text has at least one non-empty line. -/
theorem nonEmptyLines_jsTrim_ne_nil (s : String) (h : jsTrim s ≠ "") :
    nonEmptyLines (jsTrim s) ≠ [] := by
  obtain ⟨c, hc, hw⟩ := exists_not_ws_of_jsTrim_ne s h
  have hcnl : c ≠ '\n' := by
    intro rfl_eq
    rw [rfl_eq] at hw
    simp [isWsChar] at hw
  obtain ⟨lchars, hl, hcl⟩ := exists_line_of_mem hc hcnl
  have hline : String.mk lchars ∈ jsSplitNewline (jsTrim s) :=
    List.mem_map.2 ⟨lchars, hl, rfl⟩
  have hkeep : jsTrim (String.mk lchars) ≠ "" := jsTrim_mk_ne_empty_of_mem hcl hw
  have hmem : String.mk lchars ∈ nonEmptyLines (jsTrim s) := by
    rw [nonEmptyLines]
    exact List.mem_filter.2 ⟨hline, by simpa using hkeep⟩
  exact List.ne_nil_of_mem hmem

/-- Blocks that do not qualify — wrong type, absent/empty text, or text
trimming to empty — are skipped by the Claude content scan. -/
theorem claudeScanContent_append_skip (pre rest : List ClaudeContentBlock) (maxS : Int)
    (hpre : ∀ b ∈ pre,
      b.type ≠ "text" ∨ jsTruthyStr b.text = false ∨ jsTrim (b.text.getD "") = "") :
    claudeScanContent (pre ++ rest) maxS = claudeScanContent rest maxS := by
  induction pre with
  | nil => rfl
  | cons b pre ih =>
    have hb := hpre b (List.mem_cons_self b pre)
    have hrec := ih (fun x hx => hpre x (List.mem_cons_of_mem b hx))
    rcases hb with hty | htr | htm
    · simp [claudeScanContent, hty, hrec]
    · simp [claudeScanContent, htr, hrec]
    · by_cases hcond : b.type = "text" ∧ jsTruthyStr b.text = true
      · simp [claudeScanContent, hcond, htm, hrec]
      · simp only [List.cons_append, claudeScanContent]
        rw [if_neg (by simpa using hcond)]
        exact hrec

/-- Every suggestion the Claude line loop emits has confidence
0.9 - 0.1 * i for some index i below the loop bound. -/
theorem confidence_of_mem_claudeLineSuggestions {s : CompletionSuggestion}
    {lines : List String} {n : Nat} (h : s ∈ claudeLineSuggestions lines n) :
    ∃ i : Nat, i < n ∧ s.confidence = some (9 / 10 - (i : ℚ) * (1 / 10)) := by
  rw [claudeLineSuggestions] at h
  obtain ⟨i, hi, heq⟩ := List.mem_map.1 h
  exact ⟨i, List.mem_range.1 hi, by rw [← heq]⟩

/-- Every suggestion the Claude content scan emits has confidence
0.9 - 0.1 * i for some index i below maxSuggestions.toNat. -/
theorem confidence_of_mem_claudeScanContent {s : CompletionSuggestion} {maxS : Int} :
    ∀ {blocks : List ClaudeContentBlock}, s ∈ claudeScanContent blocks maxS →
    ∃ i : Nat, i < maxS.toNat ∧ s.confidence = some (9 / 10 - (i : ℚ) * (1 / 10)) := by
  intro blocks
  induction blocks with
  | nil => intro h; simp [claudeScanContent] at h
  | cons b rest ih =>
    intro h
    rw [claudeScanContent] at h
    by_cases hcond : b.type = "text" ∧ jsTruthyStr b.text = true
    · rw [if_pos (by simpa using hcond)] at h
      by_cases htm : jsTrim (b.text.getD "") ≠ ""
      · rw [if_pos htm] at h
        obtain ⟨i, hi, hconf⟩ := confidence_of_mem_claudeLineSuggestions h
        refine ⟨i, ?_, hconf⟩
        have hle : (min ((nonEmptyLines (jsTrim (b.text.getD ""))).length : Int) maxS) ≤
            maxS := min_le_right _ _
        have := Int.toNat_le_toNat hle
        omega
      · rw [if_neg htm] at h
        exact ih h
    · rw [if_neg (by simpa using hcond)] at h
      exact ih h

/-- Every confidence the Claude parser attaches is 0.9 - 0.1 * i for an
index i below maxSuggestions.toNat, or the 0.9 of the whole-text
fallback. -/
theorem confidence_of_mem_claudeParse {s : CompletionSuggestion}
    {data : ClaudeResponseData} {maxS : Int}
    (h : s ∈ (ClaudeClient.parseResponse data maxS).suggestions) :
    (∃ i : Nat, i < maxS.toNat ∧ s.confidence = some (9 / 10 - (i : ℚ) * (1 / 10))) ∨
    s.confidence = some (9 / 10) := by
  rcases data with ⟨content, m, u⟩
  rcases content with _ | blocks
  · simp [ClaudeClient.parseResponse] at h
  · simp only [ClaudeClient.parseResponse] at h
    by_cases hlen : (claudeScanContent blocks maxS).length = 0
    · rw [if_pos hlen] at h
      rcases blocks with _ | ⟨first, restb⟩
      · exact .inl (confidence_of_mem_claudeScanContent h)
      · have h2 : s ∈ (if jsTruthyStr first.text = true then
            claudeScanContent (first :: restb) maxS ++
              [{ text := jsTrim (first.text.getD ""), confidence := some (9 / 10),
                 type := some "completion" }]
          else claudeScanContent (first :: restb) maxS) := h
        by_cases htr : jsTruthyStr first.text = true
        · rw [if_pos htr] at h2
          rcases List.mem_append.1 h2 with hmem | hmem
          · exact .inl (confidence_of_mem_claudeScanContent hmem)
          · rcases List.mem_singleton.1 hmem with rfl
            exact .inr rfl
        · rw [if_neg htr] at h2
          exact .inl (confidence_of_mem_claudeScanContent h2)
    · rw [if_neg hlen] at h
      exact .inl (confidence_of_mem_claudeScanContent h)

/-- Every confidence the bundled OpenAI parser attaches comes from
calculateConfidence, hence is 0.9, 0.7 or 0.5. -/
theorem confidence_of_mem_openaiJS {s : CompletionSuggestion}
    {data : OpenAIResponseData}
    (h : s ∈ (OpenAIClient.parseResponseJS data).suggestions) :
    s.confidence = some (9 / 10) ∨ s.confidence = some (7 / 10) ∨
    s.confidence = some (1 / 2) := by
  rcases data with ⟨choices, m, u⟩
  rcases choices with _ | cs
  · simp [OpenAIClient.parseResponseJS] at h
  · simp only [OpenAIClient.parseResponseJS] at h
    obtain ⟨choice, hcmem, heq⟩ := List.mem_filterMap.1 h
    rcases hmsg : choice.message with _ | msg <;> rw [hmsg] at heq
    · simp at heq
    · have heq2 : (if jsTruthyStr msg.content = true then
          (if jsTrim (msg.content.getD "") ≠ "" then
            some { text := jsTrim (msg.content.getD "")
                   confidence := some (OpenAIClient.calculateConfidence choice)
                   type := some "completion" }
          else none)
        else none) = some s := heq
      by_cases htr : jsTruthyStr msg.content = true
      · rw [if_pos htr] at heq2
        by_cases htm : jsTrim (msg.content.getD "") ≠ ""
        · rw [if_pos htm] at heq2
          have hs : s.confidence = some (OpenAIClient.calculateConfidence choice) := by
            cases heq2
            rfl
          rw [hs, OpenAIClient.calculateConfidence]
          split
          · exact .inl rfl
          · split
            · exact .inr (.inl rfl)
            · exact .inr (.inr rfl)
        · rw [if_neg htm] at heq2
          cases heq2
      · rw [if_neg htr] at heq2
        cases heq2

/-- The TypeScript OpenAI parser attaches no confidence at all. -/
theorem confidence_of_mem_openaiTS {s : CompletionSuggestion}
    {data : OpenAIResponseData}
    (h : s ∈ (OpenAIClient.parseResponseTS data).suggestions) :
    s.confidence = none := by
  rcases data with ⟨choices, m, u⟩
  rcases choices with _ | cs
  · simp [OpenAIClient.parseResponseTS] at h
  · simp only [OpenAIClient.parseResponseTS] at h
    obtain ⟨choice, hcmem, heq⟩ := List.mem_filterMap.1 h
    rcases hmsg : choice.message with _ | msg <;> rw [hmsg] at heq
    · simp at heq
    · have heq2 : (if jsTruthyStr msg.content = true then
          (if jsTrim (msg.content.getD "") ≠ "" then
            some { text := jsTrim (msg.content.getD "")
                   type := some "completion" }
          else none)
        else none) = some s := heq
      by_cases htr : jsTruthyStr msg.content = true
      · rw [if_pos htr] at heq2
        by_cases htm : jsTrim (msg.content.getD "") ≠ ""
        · rw [if_pos htm] at heq2
          cases heq2
          rfl
        · rw [if_neg htm] at heq2
          cases heq2
      · rw [if_neg htr] at heq2
        cases heq2

/-!
Claim theorems.
-/

/-- C1: the spec claims construction fails with a ConfigurationError for an
empty or whitespace-only apiKey. The code disagrees: the exported
ClaudeClient and OpenAIClient constructors (and hence createAIClient)
perform no validation and succeed, keeping the empty key; only the dead
BaseAIClient.validateConfig, which no exported client runs, would reject
it. This theorem evaluates the code at the failing inputs: the empty key
and a whitespace-only key both construct clients, while validateConfig
rejects both. -/
theorem c1_empty_apiKey_construction_succeeds :
    ClaudeClient.mkConfig { apiKey := "" } =
      { apiKey := "", baseURL := "https://api.anthropic.com",
        model := "claude-3-haiku-20240307", maxTokens := 100, temperature := 3 / 10 } ∧
    OpenAIClient.mkConfig { apiKey := "" } =
      { apiKey := "", baseURL := "https://api.openai.com/v1",
        model := "gpt-3.5-turbo", maxTokens := 100, temperature := 3 / 10 } ∧
    createAIClient "claude" { apiKey := "" } =
      .claude (ClaudeClient.mkConfig { apiKey := "" }) ∧
    createAIClient "openai" { apiKey := "   " } =
      .openai (OpenAIClient.mkConfig { apiKey := "   " }) ∧
    BaseAIClient.validateConfig "claude" { apiKey := "" } =
      .error (.aiClient "API key is required and must be a non-empty string" "claude" none) ∧
    BaseAIClient.validateConfig "openai" { apiKey := "   " } =
      .error (.aiClient "API key is required and must be a non-empty string" "openai" none) := by
  refine ⟨?_, ?_, ?_, ?_, ?_, ?_⟩ <;>
    simp +decide [ClaudeClient.mkConfig, OpenAIClient.mkConfig, createAIClient,
      BaseAIClient.validateConfig, jsOrStr, jsOrInt, jsOrRat, jsTrim, isWsChar]

/-- C2 counterexample: calling the factory with the unrecognized provider
tag bard does not fail with a ConfigurationError; it constructs an
OpenAIClient. -/
theorem c2_counterexample :
    createAIClient "bard" { apiKey := "some-key" } =
      .openai (OpenAIClient.mkConfig { apiKey := "some-key" }) := by
  simp +decide [createAIClient]

/-- C2 amended: for every provider tag other than claude — including
unrecognized tags such as bard — createAIClient constructs an OpenAIClient
backed by the normalized config; no path of the factory fails. -/
theorem c2_amended_factory_never_fails (provider : String) (config : AIConfig)
    (h : provider ≠ "claude") :
    createAIClient provider config = .openai (OpenAIClient.mkConfig config) := by
  simp [createAIClient, h]

/-- C2 amended witness: the amended statement at the concrete tag bard. -/
theorem c2_amended_witness :
    ("bard" : String) ≠ "claude" ∧
    createAIClient "bard" { apiKey := "k" } =
      .openai (OpenAIClient.mkConfig { apiKey := "k" }) :=
  ⟨by decide, c2_amended_factory_never_fails "bard" { apiKey := "k" } (by decide)⟩

/-- C5: the spec claims out-of-range temperatures are rejected and
in-range ones — including 0 — are preserved. The code disagrees on both
sides: the exported constructors never validate, so temperature 2 yields
a client carrying temperature 2, and the JS default idiom replaces a
supplied temperature 0 by 0.3; only the dead BaseAIClient.validateConfig
would reject 2, and it accepts 0. -/
theorem c5_temperature_handling_diverges :
    (OpenAIClient.mkConfig { apiKey := "k", temperature := some 0 }).temperature = 3 / 10 ∧
    (OpenAIClient.mkConfig { apiKey := "k", temperature := some 2 }).temperature = 2 ∧
    (ClaudeClient.mkConfig { apiKey := "k", temperature := some 0 }).temperature = 3 / 10 ∧
    (ClaudeClient.mkConfig { apiKey := "k", temperature := some (1 / 2) }).temperature = 1 / 2 ∧
    BaseAIClient.validateConfig "openai" { apiKey := "k", temperature := some 2 } =
      .error (.aiClient "Temperature must be between 0.0 and 1.0" "openai" none) ∧
    BaseAIClient.validateConfig "openai" { apiKey := "k", temperature := some 0 } = .ok () := by
  refine ⟨?_, ?_, ?_, ?_, ?_, ?_⟩ <;>
    norm_num +decide [ClaudeClient.mkConfig, OpenAIClient.mkConfig,
      BaseAIClient.validateConfig, jsOrRat, jsTrim, isWsChar]

/-- C3 counterexample: on a 401 wire response the Claude client's
getCompletions throws the plain Error built from status and statusText,
not an AIClientError; the thrown error is not an AIClientError at all, so
it carries no statusCode field and no provider tag. -/
theorem c3_counterexample :
    (ClaudeClient.getCompletions (ClaudeClient.mkConfig { apiKey := "k" })
        { prompt := "x" }
        (fun _ => { status := 401, statusText := "Unauthorized", body := {} })).2 =
      .error (.plain "Claude API error: 401 Unauthorized") ∧
    (match (ClaudeClient.getCompletions (ClaudeClient.mkConfig { apiKey := "k" })
        { prompt := "x" }
        (fun _ => { status := 401, statusText := "Unauthorized", body := {} })).2 with
      | .error e => e.isAiClient
      | .ok _ => true) = false := by
  constructor
  · simp [ClaudeClient.getCompletions, fetchOk]
    rfl
  · simp [ClaudeClient.getCompletions, fetchOk]
    rfl

/-- C3 amended: for every non-2xx wire status, getCompletions of either
provider client fails by throwing a plain Error whose message is the
provider name followed by the numeric status and the status text; the
thrown error carries no structured statusCode field, and no response body
is parsed on that path — the outcome is the same for every body. -/
theorem c3_amended_non2xx_plain_error (config : NormalizedConfig)
    (request : CompletionRequest) (status : Nat) (statusText : String)
    (cbody : ClaudeResponseData) (obody : OpenAIResponseData)
    (parse : OpenAIResponseData → CompletionResponse)
    (h : fetchOk status = false) :
    (ClaudeClient.getCompletions config request
        (fun _ => { status := status, statusText := statusText, body := cbody })).2 =
      .error (.plain ("Claude API error: " ++ toString status ++ " " ++ statusText)) ∧
    (OpenAIClient.getCompletions parse config request
        (fun _ => { status := status, statusText := statusText, body := obody })).2 =
      .error (.plain ("OpenAI API error: " ++ toString status ++ " " ++ statusText)) := by
  constructor <;> simp [ClaudeClient.getCompletions, OpenAIClient.getCompletions, h]

/-- C3 amended witness: the amended statement at status 401 with the
TypeScript parser copy and empty bodies. -/
theorem c3_amended_witness :
    fetchOk 401 = false ∧
    ((ClaudeClient.getCompletions (ClaudeClient.mkConfig { apiKey := "k" })
        { prompt := "x" }
        (fun _ => { status := 401, statusText := "Unauthorized", body := {} })).2 =
      .error (.plain ("Claude API error: " ++ toString 401 ++ " " ++ "Unauthorized")) ∧
    (OpenAIClient.getCompletions OpenAIClient.parseResponseTS
        (OpenAIClient.mkConfig { apiKey := "k" }) { prompt := "x" }
        (fun _ => { status := 401, statusText := "Unauthorized", body := {} })).2 =
      .error (.plain ("OpenAI API error: " ++ toString 401 ++ " " ++ "Unauthorized"))) :=
  ⟨by decide,
   c3_amended_non2xx_plain_error (ClaudeClient.mkConfig { apiKey := "k" })
     { prompt := "x" } 401 "Unauthorized" {} {} OpenAIClient.parseResponseTS (by decide)⟩

/-- C4: the spec claims an invalid request — empty/whitespace prompt or a
non-positive maxSuggestions — fails validation before any wire request is
issued. The code disagrees: the exported ClaudeClient.getCompletions never
validates and issues its single fetch unconditionally, for the empty
prompt and for maxSuggestions 0 alike; only the dead
BaseAIClient.getCompletions would short-circuit (its callAPI count is 0
exactly because validateRequest rejects these requests first). -/
theorem c4_invalid_request_still_sent :
    ((ClaudeClient.getCompletions (ClaudeClient.mkConfig { apiKey := "k" })
        { prompt := "" }
        (fun _ => { status := 200, statusText := "OK", body := {} })).1).length = 1 ∧
    ((ClaudeClient.getCompletions (ClaudeClient.mkConfig { apiKey := "k" })
        { prompt := "x", maxSuggestions := some 0 }
        (fun _ => { status := 200, statusText := "OK", body := {} })).1).length = 1 ∧
    BaseAIClient.validateRequest "claude" { prompt := "" } =
      .error (.aiClient "Prompt is required and must be a non-empty string" "claude" none) ∧
    BaseAIClient.validateRequest "claude" { prompt := "x", maxSuggestions := some 0 } =
      .error (.aiClient "Max suggestions must be a positive number" "claude" none) ∧
    BaseAIClient.callAPICount "claude" { prompt := "" } = 0 ∧
    BaseAIClient.callAPICount "claude" { prompt := "x", maxSuggestions := some 0 } = 0 ∧
    BaseAIClient.callAPICount "claude" { prompt := "x" } = 1 := by
  refine ⟨?_, ?_, ?_, ?_, ?_, ?_, ?_⟩ <;>
    simp +decide [ClaudeClient.getCompletions, BaseAIClient.validateRequest,
      BaseAIClient.callAPICount, fetchOk, jsTrim, isWsChar]

/-- C6 counterexample: with language present and context omitted, the
concrete builders separate the Language line from the final section by a
single newline, not by a blank line; the blank-line-joined text the claim
describes (and which the dead BaseAIClient.buildPrompt produces) differs. -/
theorem c6_counterexample :
    ClaudeClient.buildPrompt { prompt := "p", language := some "ts" } =
      "Language: ts\nComplete the following code:\np" ∧
    BaseAIClient.buildPrompt { prompt := "p", language := some "ts" } =
      "Language: ts\n\nComplete the following code:\np" ∧
    ClaudeClient.buildPrompt { prompt := "p", language := some "ts" } ≠
      "Language: ts\n\nComplete the following code:\np" := by
  refine ⟨?_, ?_, ?_⟩ <;> decide

/-- C6 amended: the prompt built by the concrete ClaudeClient and
OpenAIClient builders is exactly, in fixed order, a Language line followed
by a single newline if language is present and non-empty, then a Context
block followed by a blank line if context is present and non-empty, then
the final section with the raw prompt; omitting context omits the Context
block entirely, and both builders are the same deterministic function.
Only the dead BaseAIClient.buildPrompt joins the present sections with
blank-line separators. -/
theorem c6_amended_prompt_shape (request : CompletionRequest) :
    ClaudeClient.buildPrompt request = OpenAIClient.buildPrompt request ∧
    ClaudeClient.buildPrompt request =
      (match request.language with
        | some l => if l = "" then "" else "Language: " ++ l ++ "\n"
        | none => "") ++
      ((match request.context with
        | some c => if c = "" then "" else "Context:\n" ++ c ++ "\n\n"
        | none => "") ++
      ("Complete the following code:\n" ++ request.prompt)) ∧
    BaseAIClient.buildPrompt request =
      String.intercalate "\n\n"
        ((match request.language with
          | some l => if l = "" then [] else ["Language: " ++ l]
          | none => []) ++
        ((match request.context with
          | some c => if c = "" then [] else ["Context:\n" ++ c]
          | none => []) ++
        ["Complete the following code:\n" ++ request.prompt])) := by
  obtain ⟨p, c, l, m⟩ := request
  cases c <;> cases l <;>
    simp [ClaudeClient.buildPrompt, OpenAIClient.buildPrompt, BaseAIClient.buildPrompt,
      jsTruthyStr, String.append_assoc] <;>
    split <;>
    simp [String.append_assoc]

/-- C7: confirmed on the bundled parser (src/lib/index.js), the copy the
package entry point ships: each choices entry whose message content trims
non-empty yields exactly one suggestion of type completion carrying the
trimmed text and a confidence computed by calculateConfidence from the
finish reason — stop 0.9, length 0.7, anything else 0.5 — and the
synthetic single-choice stop response parses to exactly the one suggestion
the claim names. -/
theorem c7_openai_confidence_from_finish_reason (choices : List OpenAIChoice)
    (m : Option String) (u : Option OpenAIUsage) :
    (OpenAIClient.parseResponseJS
        { choices := some choices, model := m, usage := u }).suggestions =
      (choices.filter (fun choice =>
          decide (jsTrim ((choice.message.bind OpenAIMessage.content).getD "") ≠ ""))).map
        (fun choice =>
          { text := jsTrim ((choice.message.bind OpenAIMessage.content).getD "")
            confidence := some (OpenAIClient.calculateConfidence choice)
            type := some "completion" }) ∧
    OpenAIClient.calculateConfidence { finish_reason := some "stop" } = 9 / 10 ∧
    OpenAIClient.calculateConfidence { finish_reason := some "length" } = 7 / 10 ∧
    OpenAIClient.calculateConfidence { finish_reason := some "content_filter" } = 1 / 2 ∧
    OpenAIClient.calculateConfidence { finish_reason := none } = 1 / 2 ∧
    (OpenAIClient.parseResponseJS
        { choices := some [{ message := some { content := some "foo" },
                             finish_reason := some "stop" }] }).suggestions =
      [{ text := "foo", confidence := some (9 / 10), type := some "completion" }] := by
  refine ⟨?_, ?_, ?_, ?_, ?_, ?_⟩
  · simp only [OpenAIClient.parseResponseJS]
    apply filterMap_eq_filter_map_of
    intro choice
    rcases choice with ⟨message, fr⟩
    rcases message with _ | ⟨content⟩
    · simp [jsTrim, isWsChar]
    · rcases content with _ | s
      · simp [jsTrim, isWsChar, jsTruthyStr]
      · by_cases hs : s = ""
        · simp [hs, jsTruthyStr, jsTrim, isWsChar]
        · by_cases ht : jsTrim s = "" <;> simp [jsTruthyStr, hs, ht]
  · norm_num +decide [OpenAIClient.calculateConfidence]
  · norm_num +decide [OpenAIClient.calculateConfidence]
  · norm_num +decide [OpenAIClient.calculateConfidence]
  · norm_num +decide [OpenAIClient.calculateConfidence]
  · norm_num +decide [OpenAIClient.parseResponseJS, OpenAIClient.calculateConfidence,
      jsTruthyStr, jsTrim, isWsChar, List.filterMap_cons, List.filterMap_nil]

/-- C10: confirmed — the OpenAI chat-completions parser applies no
client-side cap: both the TypeScript copy and the bundled copy return one
suggestion per choices entry whose trimmed message content is non-empty,
whatever maxSuggestions was, and the only effect of the request's
maxSuggestions on the OpenAI path is the wire parameter n of the one
outgoing request, which is maxSuggestions when supplied and non-zero and
3 otherwise. -/
theorem c10_openai_parser_uncapped (data : OpenAIResponseData)
    (config : NormalizedConfig) (request : CompletionRequest)
    (wire : OpenAIWireRequest → OpenAIWireResponse)
    (parse : OpenAIResponseData → CompletionResponse) :
    (OpenAIClient.parseResponseTS data).suggestions.length =
      (data.choices.getD []).countP (fun choice =>
        decide (jsTrim ((choice.message.bind OpenAIMessage.content).getD "") ≠ "")) ∧
    (OpenAIClient.parseResponseJS data).suggestions.length =
      (data.choices.getD []).countP (fun choice =>
        decide (jsTrim ((choice.message.bind OpenAIMessage.content).getD "") ≠ "")) ∧
    ((OpenAIClient.getCompletions parse config request wire).1).map OpenAIWireRequest.n =
      [jsOrInt request.maxSuggestions 3] := by
  refine ⟨?_, ?_, ?_⟩
  · rcases hc : data.choices with _ | choices
    · simp [OpenAIClient.parseResponseTS, hc]
    · simp only [OpenAIClient.parseResponseTS, hc, Option.getD_some]
      apply length_filterMap_eq_countP_of
      intro choice
      rcases choice with ⟨message, fr⟩
      rcases message with _ | ⟨content⟩
      · simp [jsTrim, isWsChar]
      · rcases content with _ | s
        · simp [jsTruthyStr, jsTrim, isWsChar]
        · by_cases hs : s = ""
          · simp [hs, jsTruthyStr, jsTrim, isWsChar]
          · by_cases ht : jsTrim s = "" <;> simp [jsTruthyStr, hs, ht]
  · rcases hc : data.choices with _ | choices
    · simp [OpenAIClient.parseResponseJS, hc]
    · simp only [OpenAIClient.parseResponseJS, hc, Option.getD_some]
      apply length_filterMap_eq_countP_of
      intro choice
      rcases choice with ⟨message, fr⟩
      rcases message with _ | ⟨content⟩
      · simp [jsTrim, isWsChar]
      · rcases content with _ | s
        · simp [jsTruthyStr, jsTrim, isWsChar]
        · by_cases hs : s = ""
          · simp [hs, jsTruthyStr, jsTrim, isWsChar]
          · by_cases ht : jsTrim s = "" <;> simp [jsTruthyStr, hs, ht]
  · simp [OpenAIClient.getCompletions]
    split <;> simp

/-- C8: confirmed — when the first qualifying content block (type text,
non-empty text, trimming non-empty) carries text t, the Claude parser
splits the trimmed t into non-empty lines, caps the count at
maxSuggestions, and emits one suggestion per kept line index i with the
trimmed line as text and confidence 0.9 - 0.1 * i; preceding
non-qualifying blocks are skipped, and the positive cap guarantees the
whole-text fallback is not taken. -/
theorem c8_claude_split_cap_decay (pre : List ClaudeContentBlock) (text : String)
    (maxS : Int) (m : Option String) (u : Option ClaudeUsage)
    (hpre : ∀ b ∈ pre,
      b.type ≠ "text" ∨ jsTruthyStr b.text = false ∨ jsTrim (b.text.getD "") = "")
    (htext : jsTrim text ≠ "") (hmax : 1 ≤ maxS) :
    (ClaudeClient.parseResponse
        { content := some (pre ++ [{ type := "text", text := some text }]),
          model := m, usage := u } maxS).suggestions =
      (List.range (min ((nonEmptyLines (jsTrim text)).length : Int) maxS).toNat).map
        (fun i =>
          { text := jsTrim ((nonEmptyLines (jsTrim text)).getD i "")
            confidence := some (9 / 10 - (i : ℚ) * (1 / 10))
            type := some "completion" }) := by
  have htxt0 : text ≠ "" := by
    intro h0
    rw [h0] at htext
    exact htext rfl
  have hscan : claudeScanContent (pre ++ [{ type := "text", text := some text }]) maxS =
      claudeLineSuggestions (nonEmptyLines (jsTrim text))
        (min ((nonEmptyLines (jsTrim text)).length : Int) maxS).toNat := by
    rw [claudeScanContent_append_skip pre _ maxS hpre]
    simp [claudeScanContent, jsTruthyStr, htxt0, htext]
  have hlen1 : 1 ≤ ((nonEmptyLines (jsTrim text)).length : Int) := by
    have := nonEmptyLines_jsTrim_ne_nil text htext
    have hpos : 0 < (nonEmptyLines (jsTrim text)).length := List.length_pos.2 this
    exact_mod_cast hpos
  have hnum : 1 ≤ (min ((nonEmptyLines (jsTrim text)).length : Int) maxS).toNat := by
    rcases le_total ((nonEmptyLines (jsTrim text)).length : Int) maxS with hle | hle
    · rw [min_eq_left hle]; omega
    · rw [min_eq_right hle]; omega
  have hlenscan : (claudeLineSuggestions (nonEmptyLines (jsTrim text))
      (min ((nonEmptyLines (jsTrim text)).length : Int) maxS).toNat).length ≠ 0 := by
    rw [claudeLineSuggestions, List.length_map, List.length_range]
    omega
  simp only [ClaudeClient.parseResponse, hscan]
  rw [if_neg hlenscan]
  rfl

/-- C8 witness: the claim's own example, preceded by one non-qualifying
block — content a, b, c on three lines with maxSuggestions 2 yields
exactly the suggestions a at 0.9 and b at 0.8; the third line is dropped. -/
theorem c8_witness :
    (∀ b ∈ ([{ type := "image", text := none }] : List ClaudeContentBlock),
      b.type ≠ "text" ∨ jsTruthyStr b.text = false ∨ jsTrim (b.text.getD "") = "") ∧
    jsTrim "a\nb\nc" ≠ "" ∧ (1 : Int) ≤ 2 ∧
    (ClaudeClient.parseResponse
        { content := some ([{ type := "image", text := none }] ++
            [{ type := "text", text := some "a\nb\nc" }]) } 2).suggestions =
      [{ text := "a", confidence := some (9 / 10), type := some "completion" },
       { text := "b", confidence := some (4 / 5), type := some "completion" }] :=
  ⟨by decide, by decide, by decide,
   (c8_claude_split_cap_decay [{ type := "image", text := none }] "a\nb\nc" 2 none none
      (by decide) (by decide) (by decide)).trans (by
        have hr : List.range
            (min ((nonEmptyLines (jsTrim "a\nb\nc")).length : Int) 2).toNat = [0, 1] := by
          decide
        have hr2 : List.range (Int.toNat 2) = [0, 1] := by decide
        norm_num +decide [hr, hr2, jsTrim, isWsChar, nonEmptyLines, jsSplitNewline,
          splitNlAux])⟩

/-- C9 counterexample: with eleven non-empty lines and maxSuggestions 11,
the Claude parser emits an eleventh suggestion whose confidence is
0.9 - 10 * 0.1 = -0.1, which lies outside the unit interval — so the
claimed invariant fails for maxSuggestions values above 10. -/
theorem c9_counterexample :
    ((ClaudeClient.parseResponse
        { content := some [{ type := "text", text := some "a\nb\nc\nd\ne\nf\ng\nh\ni\nj\nk" }] }
        11).suggestions.getD 10 { text := "" }).confidence = some (-(1 / 10) : ℚ) ∧
    ¬ (0 : ℚ) ≤ -(1 / 10) := by
  constructor
  · have hr : List.range (Int.toNat 11) = [0, 1, 2, 3, 4, 5, 6, 7, 8, 9, 10] := by decide
    norm_num +decide [ClaudeClient.parseResponse, claudeScanContent, claudeLineSuggestions,
      nonEmptyLines, jsTruthyStr, jsTrim, jsSplitNewline, splitNlAux, isWsChar, hr,
      List.map_cons, List.getD]
  · norm_num

/-- C9 amended: whenever the parse cap maxSuggestions is at most 10,
every confidence value the Claude parser attaches lies in the unit
interval; the confidences the bundled OpenAI parser attaches (0.9, 0.7 or
0.5) always do, and the TypeScript OpenAI parser attaches none at all, so
its suggestions satisfy the invariant vacuously. -/
theorem c9_amended_confidence_in_range (data : ClaudeResponseData)
    (dataJS dataTS : OpenAIResponseData) (maxS : Int) (h10 : maxS ≤ 10) :
    (∀ s ∈ (ClaudeClient.parseResponse data maxS).suggestions,
      ∀ q : ℚ, s.confidence = some q → 0 ≤ q ∧ q ≤ 1) ∧
    (∀ s ∈ (OpenAIClient.parseResponseJS dataJS).suggestions,
      ∀ q : ℚ, s.confidence = some q → 0 ≤ q ∧ q ≤ 1) ∧
    (∀ s ∈ (OpenAIClient.parseResponseTS dataTS).suggestions,
      ∀ q : ℚ, s.confidence = some q → 0 ≤ q ∧ q ≤ 1) := by
  refine ⟨?_, ?_, ?_⟩
  · intro s hs q hq
    rcases confidence_of_mem_claudeParse hs with ⟨i, hi, hconf⟩ | hconf
    · rw [hconf] at hq
      have hq9 : q = 9 / 10 - (i : ℚ) * (1 / 10) := by
        injection hq with h9
        exact h9.symm
      have hiN : i ≤ 9 := by omega
      have hiQ : (i : ℚ) ≤ 9 := by exact_mod_cast hiN
      have hiQ0 : (0 : ℚ) ≤ (i : ℚ) := by positivity
      constructor <;> rw [hq9] <;> linarith
    · rw [hconf] at hq
      have hq9 : q = 9 / 10 := by
        injection hq with h9
        exact h9.symm
      rw [hq9]
      norm_num
  · intro s hs q hq
    rcases confidence_of_mem_openaiJS hs with hc | hc | hc <;>
      rw [hc] at hq <;>
      · have hqv := Option.some.inj hq
        rw [← hqv]
        norm_num
  · intro s hs q hq
    rw [confidence_of_mem_openaiTS hs] at hq
    cases hq

/-- C9 amended witness: the amended statement at cap 2 on concrete
two-line Claude content and one-choice OpenAI bodies. -/
theorem c9_amended_witness :
    (2 : Int) ≤ 10 ∧
    ((∀ s ∈ (ClaudeClient.parseResponse
        { content := some [{ type := "text", text := some "a\nb" }] } 2).suggestions,
      ∀ q : ℚ, s.confidence = some q → 0 ≤ q ∧ q ≤ 1) ∧
    (∀ s ∈ (OpenAIClient.parseResponseJS
        { choices := some [{ message := some { content := some "foo" },
                             finish_reason := some "stop" }] }).suggestions,
      ∀ q : ℚ, s.confidence = some q → 0 ≤ q ∧ q ≤ 1) ∧
    (∀ s ∈ (OpenAIClient.parseResponseTS
        { choices := some [{ message := some { content := some "foo" },
                             finish_reason := some "stop" }] }).suggestions,
      ∀ q : ℚ, s.confidence = some q → 0 ≤ q ∧ q ≤ 1)) :=
  ⟨by decide,
   c9_amended_confidence_in_range
     { content := some [{ type := "text", text := some "a\nb" }] }
     { choices := some [{ message := some { content := some "foo" },
                          finish_reason := some "stop" }] }
     { choices := some [{ message := some { content := some "foo" },
                          finish_reason := some "stop" }] }
     2 (by decide)⟩

end CocAgent
